import Mathlib

/-!
Verification of the kineticio client-side storage engine against its
natural-language specification.  The definitions below are shallow
embeddings of the C++ sources under src/: `KineticCluster.cc`,
`DataCache.cc`, `DataBlock.cc` and `PrefetchOracle.cc`.  Machine strings
are modelled as `List Nat` (byte lists), C++ doubles used by the cache
throttle are modelled as rationals, and the collaborators whose sources
are not in the repository snapshot (the erasure coder, the uuid/size
version encoding of Utility.cc) are modelled from the specification, as
marked in their doc comments.
-/

set_option linter.unusedVariables false

/-- Status codes of the kinetic drive RPC surface, from
`kinetic::StatusCode` as used in src/src/KineticCluster.cc. -/
inductive StatusCode where
  | OK
  | REMOTE_NOT_FOUND
  | REMOTE_VERSION_MISMATCH
  | REMOTE_REMOTE_CONNECTION_ERROR
  | CLIENT_IO_ERROR
  | CLIENT_INTERNAL_ERROR
  deriving DecidableEq, Repr

/-- A `kinetic::KineticStatus`: a status code together with a message. -/
structure KStatus where
  code : StatusCode
  message : String
  deriving DecidableEq, Repr

/-- Number of results in `results` whose status code equals `c`; this is
the `frequency` computed by the reduction loop at the end of
`KineticCluster::execute` (src/src/KineticCluster.cc:747-751). -/
def countCode (results : List KStatus) (c : StatusCode) : Nat :=
  results.countP (fun l => decide (l.code = c))

/-- The fallback status built at src/src/KineticCluster.cc:758-761. -/
def insufficientStatus : KStatus :=
  ⟨StatusCode.CLIENT_IO_ERROR,
   "Failed to get sufficient conforming return results from drives."⟩

/-- The scan of `KineticCluster::execute` (src/src/KineticCluster.cc:747-757):
walk the results in drive order; return the first result whose status-code
frequency reaches `nData`; stop the scan (returning nothing) as soon as a
frequency exceeds `nParity` without reaching `nData`. -/
def reduceScan (nData nParity : Nat) (all : List KStatus) : List KStatus → Option KStatus
  | [] => none
  | o :: rest =>
    let freq := countCode all o.code
    if nData ≤ freq then some o
    else if nParity < freq then none
    else reduceScan nData nParity all rest

/-- Result reduction of `KineticCluster::execute`
(src/src/KineticCluster.cc:746-762): the scan result, or the generic
`CLIENT_IO_ERROR` when the scan produced nothing. -/
def executeReduce (nData nParity : Nat) (results : List KStatus) : KStatus :=
  (reduceScan nData nParity results results).getD insufficientStatus

/-- A version-mismatch drive result, used as concrete test data. -/
def vmStatus : KStatus := ⟨StatusCode.REMOTE_VERSION_MISMATCH, ""⟩

/-- A not-found drive result, used as concrete test data. -/
def nfStatus : KStatus := ⟨StatusCode.REMOTE_NOT_FOUND, ""⟩

/-- An `OK` drive result. -/
def okStatus : KStatus := ⟨StatusCode.OK, ""⟩

/-- The index loop of `KineticCluster::initialize`
(src/src/KineticCluster.cc:643-663): starting from the key hash, the
index is advanced by one modulo the connection count *before* each use,
producing one target drive index per requested operation. -/
def stripeTargetsAux (numConn : Nat) : Nat → Nat → List Nat
  | _, 0 => []
  | index, Nat.succ k =>
    ((index + 1) % numConn) :: stripeTargetsAux numConn ((index + 1) % numConn) k

/-- Drive indices targeted by `KineticCluster::initialize` for a key whose
`std::hash` value is `h`, over `numConn` connections, for `size`
operations. -/
def stripeTargets (h numConn size : Nat) : List Nat :=
  stripeTargetsAux numConn h size

/-- The drive order asserted by the specification (spec §4.4.1): the
stripe starts at index `hash(k) mod N` and occupies the next
`nData + nParity` drives modulo `N`.  This definition follows the spec's
words and is compared against `stripeTargets`, which embeds the code. -/
def specTargets (h numConn size : Nat) : List Nat :=
  (List.range size).map (fun i => (h + i) % numConn)

/-- One step of the zlib CRC32 (polynomial 0xEDB88320, reflected): shift
the running remainder right by one bit, folding in the polynomial when
the low bit is set. -/
def crc32Shift (c : Nat) : Nat :=
  if c % 2 = 1 then (c / 2) ^^^ 0xEDB88320 else c / 2

/-- Fold one input byte into the running CRC32 remainder. -/
def crc32Byte (c : Nat) (b : Nat) : Nat :=
  Nat.iterate crc32Shift 8 (c ^^^ (b % 256))

/-- zlib `crc32(0, buf, len)` over a byte list, as called by
`KineticCluster::put` (src/src/KineticCluster.cc:444) and by
`getOperationToStripe` (src/src/KineticCluster.cc:303). -/
def crc32 (data : List Nat) : Nat :=
  (data.foldl crc32Byte 0xFFFFFFFF) ^^^ 0xFFFFFFFF

/-- Modelled from the spec: the version tag produced by
`utility::uuidGenerateEncodeSize` and read back by
`utility::uuidDecodeSize` (Utility.cc is not part of the source
snapshot).  Per spec §3, a version is an opaque uuid that also encodes
the total (unpadded) value length; two versions are equal when their
byte strings are, which the pair equality models. -/
structure VersionTag where
  uuid : Nat
  size : Nat
  deriving DecidableEq, Repr

/-- A `kinetic::KineticRecord` as used by the cluster engine: value
bytes, version, and CRC tag.  The C++ tag is the decimal string of the
checksum; decimal strings are equal exactly when the numbers are, so the
tag is modelled as the number itself. -/
structure KRecord where
  value : List Nat
  version : VersionTag
  tag : Nat
  deriving DecidableEq, Repr

/-- The observable outcome of one drive `Get` operation: the callback's
result status and the record (absent when the drive failed). -/
structure GetResult where
  status : KStatus
  record : Option KRecord
  deriving DecidableEq, Repr

/-- Loop body of `mostFrequent` (src/src/KineticCluster.cc:177-199):
scan the operations, remembering the first element whose frequency
strictly exceeds the best so far, and stop early once a frequency
exceeds half the list. -/
def mfLoop (all : List GetResult) (eq : GetResult → GetResult → Bool) :
    List GetResult → GetResult → Nat → GetResult × Nat
  | [], best, cnt => (best, cnt)
  | o :: rest, best, cnt =>
    let freq := all.countP (eq o)
    let next := if cnt < freq then (o, freq) else (best, cnt)
    if all.length / 2 < freq then next
    else mfLoop all eq rest next.1 next.2

/-- `mostFrequent` (src/src/KineticCluster.cc:177-199): the most common
element of the operation vector under `eq`, with its frequency. -/
def mostFrequent (ops : List GetResult) (eq : GetResult → GetResult → Bool) :
    Option (GetResult × Nat) :=
  match ops with
  | [] => none
  | h :: _ => some (mfLoop ops eq ops h 0)

/-- `getRecordVersionEqual` (src/src/KineticCluster.cc:213-219) compares
the record versions of two get operations.  The C++ dereferences the
record pointers; results without a record are modelled as comparing
their absent versions. -/
def recordVersionEqual (lhs rhs : GetResult) : Bool :=
  decide ((lhs.record.map KRecord.version) = (rhs.record.map KRecord.version))

/-- `getOperationToStripe` (src/src/KineticCluster.cc:284-315): build the
stripe from the returned records, keeping only non-empty values that
carry the target version and whose CRC32 matches the stored tag; every
other position is an empty blob.  Returns the stripe and the number of
accepted blobs. -/
def stripeFromResults (results : List GetResult) (target : VersionTag) :
    List (List Nat) × Nat :=
  results.foldl
    (fun acc o =>
      match o.record with
      | some rec =>
        if rec.version = target ∧ rec.value ≠ [] ∧ crc32 rec.value = rec.tag
        then (acc.1 ++ [rec.value], acc.2 + 1)
        else (acc.1 ++ [[]], acc.2)
      | none => (acc.1 ++ [[]], acc.2))
    ([], 0)

/-- `std::string::c_str()` as consumed by `append` at
src/src/KineticCluster.cc:367: the bytes up to the first NUL. -/
def cStr (l : List Nat) : List Nat :=
  l.takeWhile (fun b => b ≠ 0)

/-- `std::string::resize(n)`: truncate to `n` bytes, padding with NUL
bytes when the string is shorter (src/src/KineticCluster.cc:370). -/
def resizePad (l : List Nat) (n : Nat) : List Nat :=
  l.take n ++ List.replicate (n - l.length) 0

/-- `KineticCluster::get` with `skip_value = false`
(src/src/KineticCluster.cc:317-374), starting from the per-drive results
of the completed scatter-gather.  `compute` is the erasure coder's
`compute` call.  Returns the reduced status and, on success, the winning
version and assembled value. -/
def clusterGet (nData nParity : Nat)
    (compute : List (List Nat) → Except String (List (List Nat)))
    (results : List GetResult) : KStatus × Option (VersionTag × List Nat) :=
  let status := executeReduce nData nParity (results.map GetResult.status)
  if status.code ≠ StatusCode.OK then (status, none)
  else
    match mostFrequent results recordVersionEqual with
    | none => (status, none)
    | some (op, count) =>
      if count < nData then
        (⟨StatusCode.CLIENT_IO_ERROR, "Unreadable"⟩, none)
      else
        match op.record with
        | none => (⟨StatusCode.CLIENT_INTERNAL_ERROR, "null record"⟩, none)
        | some rec =>
          let target := rec.version
          let sc := stripeFromResults results target
          if sc.2 = 0 then (status, some (target, []))
          else
            let stripeE := if sc.2 < sc.1.length then compute sc.1 else Except.ok sc.1
            match stripeE with
            | Except.error e => (⟨StatusCode.CLIENT_INTERNAL_ERROR, e⟩, none)
            | Except.ok stripe =>
              let v := ((stripe.take nData).map cStr).flatten
              (status, some (target, resizePad v target.size))

/-- `KineticCluster::put` (src/src/KineticCluster.cc:404-469): chunk the
value into `nData` pieces of `ceil(len/nData)` bytes, let the erasure
coder fill the parity blobs (skipped for an empty value), and build one
record per drive carrying the blob, the freshly generated
length-encoding version and the blob's CRC32 tag. -/
def clusterPut (nData nParity : Nat)
    (compute : List (List Nat) → Except String (List (List Nat)))
    (value : List Nat) (newUuid : Nat) :
    Except String (List KRecord × VersionTag) :=
  let versionNew : VersionTag := ⟨newUuid, value.length⟩
  let chunkSize := (value.length + nData - 1) / nData
  let stripe := (List.range (nData + nParity)).map
    (fun i => if i * chunkSize < value.length
              then (value.drop (i * chunkSize)).take chunkSize
              else [])
  let stripeE := if chunkSize ≠ 0 then compute stripe else Except.ok stripe
  match stripeE with
  | Except.error e => Except.error e
  | Except.ok stripe' =>
    Except.ok (stripe'.map (fun v => ⟨v, versionNew, crc32 v⟩), versionNew)

/-- Pad a blob with NUL bytes up to length `m`. -/
def padTo (m : Nat) (l : List Nat) : List Nat :=
  l ++ List.replicate (m - l.length) 0

/-- Modelled from the spec: the erasure coder (`ErasureCoding.cc` is not
in the source snapshot) exposes `compute(stripe)`, which on write fills
the parity blobs and on read reconstructs missing blobs when at least
`nData` blobs are present (spec §Glossary, §4.4.4).  This instance is
the single-parity XOR code: with at most one blob absent (absent =
empty), the missing blob is the XOR of the padded others. -/
def xorCompute (stripe : List (List Nat)) : Except String (List (List Nat)) :=
  let m := stripe.foldl (fun acc c => max acc c.length) 0
  let missing := (stripe.filter List.isEmpty).length
  if missing = 0 then Except.ok stripe
  else if missing = 1 then
    let x := stripe.foldl
      (fun acc c => if c.isEmpty then acc else List.zipWith Nat.xor acc (padTo m c))
      (List.replicate m 0)
    Except.ok (stripe.map (fun c => if c.isEmpty then x else c))
  else Except.error "too many missing chunks"

/-- Store-and-load pipeline: `put` the value, hand every stored record
back as an `OK` drive result, and run `get` on them; returns the value
produced by the get, if any. -/
def putGetRoundtrip (nData nParity : Nat)
    (compute : List (List Nat) → Except String (List (List Nat)))
    (value : List Nat) (newUuid : Nat) : Option (List Nat) :=
  match clusterPut nData nParity compute value newUuid with
  | Except.error _ => none
  | Except.ok (records, _) =>
    (clusterGet nData nParity compute
      (records.map (fun r => ⟨okStatus, some r⟩))).2.map Prod.snd

/-- Value assembly as the specification words it (spec §4.4.4): the
concatenation of the first `nData` stripe blobs, truncated to the length
encoded in the winning version.  Compared against the code's
`c_str`-based assembly in `clusterGet`. -/
def specAssembledValue (nData : Nat) (stripe : List (List Nat)) (sz : Nat) :
    List Nat :=
  ((stripe.take nData).flatten).take sz

/-- Per-drive results for a healthy stripe (`nData = 2`, `nParity = 1`)
holding the 4-byte value `00 41 42 43`: data blobs `[0,65]` and
`[66,67]`, XOR parity `[66,2]`, all tagged with their correct CRC32 and
carrying the same length-4 version. -/
def c2results : List GetResult :=
  [⟨okStatus, some ⟨[0, 65], ⟨7, 4⟩, crc32 [0, 65]⟩⟩,
   ⟨okStatus, some ⟨[66, 67], ⟨7, 4⟩, crc32 [66, 67]⟩⟩,
   ⟨okStatus, some ⟨[66, 2], ⟨7, 4⟩, crc32 [66, 2]⟩⟩]

/-- A cache item as seen by the eviction logic of `DataCache`
(src/src/DataCache.cc): the dirty flag of its data block and the bytes
(`data->capacity()`) it accounts for in `current_size`. -/
structure CacheItem where
  dirty : Bool
  size : Nat
  deriving DecidableEq, Repr

/-- The tail eviction scan shared by `DataCache::throttle`
(src/src/DataCache.cc:117-120) and `DataCache::get`
(src/src/DataCache.cc:171-174).  The list is in scan order: head = the
LRU tail (`--cache.end()`), last element = `cache.begin()`, which the
loop condition `it != cache.begin()` never processes.  Each iteration
stops if `current_size ≤ target_size` or the item budget is exhausted;
a clean item is removed (its size leaves `current_size`), a dirty item
is skipped.  Returns the surviving items (same order) and the new
`current_size`. -/
def tailScan (target : Nat) : Nat → Nat → List CacheItem → List CacheItem × Nat
  | _, curr, [] => ([], curr)
  | _, curr, [front] => ([front], curr)
  | 0, curr, item :: rest => (item :: rest, curr)
  | Nat.succ budget, curr, item :: rest =>
    if curr ≤ target then (item :: rest, curr)
    else if item.dirty then
      let p := tailScan target budget curr rest
      (item :: p.1, p.2)
    else
      tailScan target budget (curr - item.size) rest

/-- The capacity-pressure path of `DataCache::get`
(src/src/DataCache.cc:177-189): when inserting would exceed capacity,
take the LRU-tail item; if it is dirty, flush it (on failure the error
propagates and nothing is removed; on success the block becomes clean),
then remove it.  `flushOk` is the outcome of `DataBlock::flush`.
Returns the remaining items and the removed item in its state at the
moment of removal. -/
def capacityEvict (front : List CacheItem) (tl : CacheItem) (flushOk : Bool) :
    Except Unit (List CacheItem × CacheItem) :=
  if tl.dirty then
    if flushOk then Except.ok (front, { tl with dirty := false })
    else Except.error ()
  else Except.ok (front, tl)

/-- `DataCache::cache_pressure` (src/src/DataCache.cc:205-211), with the
C++ double arithmetic modelled over the rationals. -/
def cachePressure (current target capacity : Nat) : ℚ :=
  if current ≤ target then 0
  else ((current - target : Nat) : ℚ) / ((capacity - target : Nat) : ℚ)

/-- The threshold of iteration `n` of the `DataCache::throttle` loop
(src/src/DataCache.cc:104): `wait_pressure` starts at 0.10 and grows by
0.01 each iteration. -/
def waitPressure (n : Nat) : ℚ :=
  1 / 10 + n * (1 / 100)

/-- The two submission entry points of `BackgroundOperationHandler`
(src/include/BackgroundOperationHandler.hh): `run` blocks the caller
when the queue is full, `try_run` refuses without blocking. -/
inductive SubmitMode where
  | run
  | tryRun
  deriving DecidableEq, Repr

/-- The submission entry point used by `DataCache::async_flush`
(src/src/DataCache.cc:226-229), which calls `bg.run(...)` on the task
that performs the flush. -/
def asyncFlushSubmitMode : SubmitMode :=
  SubmitMode.run

/-- Lookup in the per-owner exception map (`std::map` keyed by owner). -/
def lookupExc : List (Nat × Nat) → Nat → Option Nat
  | [], _ => none
  | (o, e) :: rest, owner => if o = owner then some e else lookupExc rest owner

/-- `exceptions.erase(owner)`: drop the owner's entry from the map. -/
def eraseExc (excs : List (Nat × Nat)) (owner : Nat) : List (Nat × Nat) :=
  excs.filter (fun p => p.1 ≠ owner)

/-- `exceptions[owner] = e`: set the owner's entry in the map. -/
def setExc : List (Nat × Nat) → Nat → Nat → List (Nat × Nat)
  | [], owner, e => [(owner, e)]
  | (o, e') :: rest, owner, e =>
    if o = owner then (o, e) :: rest else (o, e') :: setExc rest owner e

/-- `DataCache::do_flush` (src/src/DataCache.cc:213-224), the task body
submitted by `async_flush`: if the block is dirty, flush it, and record
a thrown exception (`flushErr`) in the owner's entry of the exception
map. -/
def doFlush (excs : List (Nat × Nat)) (owner : Nat) (dirty : Bool)
    (flushErr : Option Nat) : List (Nat × Nat) :=
  if dirty then
    match flushErr with
    | some e => setExc excs owner e
    | none => excs
  else excs

/-- The exception check at the start of `DataCache::get`
(src/src/DataCache.cc:135-141): if the owner has a recorded exception,
remove it from the map and raise it (first component). -/
def getExcCheck (excs : List (Nat × Nat)) (owner : Nat) :
    Option Nat × List (Nat × Nat) :=
  match lookupExc excs owner with
  | some e => (some e, eraseExc excs owner)
  | none => (none, excs)

/-- The copy stage of `DataBlock::read` (src/src/DataBlock.cc:127-134):
`memset(buffer, 0, length)` when the requested range reaches past
`value_size`, then, when `value_size > offset`,
`value->copy(buffer, copy_length, offset)`, which writes
`min(copy_length, value.size() - offset)` bytes.  `init` is the initial
contents of the requested `length`-byte range; the result is that range
after the call. -/
def readBytes (value : List Nat) (valueSize : Nat) (init : List Nat)
    (off length : Nat) : List Nat :=
  let b1 := if valueSize < off + length
            then List.replicate length 0 ++ init.drop length
            else init
  if off < valueSize then
    let copyLength := min length (valueSize - off)
    let rlen := min copyLength (value.length - off)
    ((value.drop off).take rlen) ++ b1.drop rlen
  else b1

/-- `DataBlock::read` (src/src/DataBlock.cc:114-135) after the staleness
check (the cluster round-trips of `validateVersion`/`getRemoteValue` are
outside this claim): validate the arguments — NULL buffer, negative
offset, range past `cluster->limits().max_value_size` — then perform the
zero-fill and copy of `readBytes`.  `buffer` is `none` for a NULL
pointer. -/
def blockRead (maxValueSize : Nat) (value : List Nat) (valueSize : Nat)
    (buffer : Option (List Nat)) (offset : ℤ) (length : Nat) :
    Except String (List Nat) :=
  match buffer with
  | none => Except.error "null buffer supplied"
  | some init =>
    if offset < 0 then Except.error "negative offset"
    else if maxValueSize < offset.toNat + length then
      Except.error "attempting to read past cluster limits"
    else
      Except.ok (readBytes value valueSize init offset.toNat length)

/-- A prefetch oracle state (src/src/PrefetchOracle.cc): the
deduplicated most-recent-first access history and the deque of past
predictions. -/
structure OracleState where
  maxPrediction : Nat
  sequence : List ℤ
  pastPrediction : List ℤ
  deriving DecidableEq, Repr

/-- `sequence_capacity` from the `PrefetchOracle` constructor
(src/src/PrefetchOracle.cc:34-37). -/
def seqCapacity (maxPrediction : Nat) : Nat :=
  if 8 < maxPrediction then maxPrediction + 2 else 10

/-- `PrefetchOracle::add` (src/src/PrefetchOracle.cc:41-48): push a
number not already in the history to the front, dropping the oldest
entry beyond capacity. -/
def oracleAdd (s : OracleState) (n : ℤ) : OracleState :=
  if n ∈ s.sequence then s
  else
    let seq := n :: s.sequence
    { s with sequence := if seqCapacity s.maxPrediction < seq.length
                         then seq.dropLast else seq }

/-- Append a witness `w` for distance `d` to the distance table,
preserving first-insertion order of the distances
(`distances[d].push_back(w)` at src/src/PrefetchOracle.cc:67-70). -/
def addWitness : List (ℤ × List ℤ) → ℤ → ℤ → List (ℤ × List ℤ)
  | [], d, w => [(d, [w])]
  | (d', ws) :: rest, d, w =>
    if d' = d then (d', ws ++ [w]) :: rest
    else (d', ws) :: addWitness rest d w

/-- The distance-collection loop of `PrefetchOracle::predict`
(src/src/PrefetchOracle.cc:63-73): for every history element record the
distance to its successor and to its next-to-successor, keyed by
distance, with the element itself as witness. -/
def buildDistances : List ℤ → List (ℤ × List ℤ) → List (ℤ × List ℤ)
  | a :: b :: c :: rest, m =>
    buildDistances (b :: c :: rest) (addWitness (addWitness m (a - b) a) (a - c) a)
  | [a, b], m => addWitness m (a - b) a
  | _, m => m

/-- The most-frequent-distance scan of `PrefetchOracle::predict`
(src/src/PrefetchOracle.cc:76-80): keep the entry whose witness list is
strictly longer than the best so far. -/
def pickDistance : List (ℤ × List ℤ) → ℤ × List ℤ → ℤ × List ℤ
  | [], best => best
  | (d, ws) :: rest, best =>
    pickDistance rest (if best.2.length < ws.length then (d, ws) else best)

/-- The prediction type of `PrefetchOracle::predict`; the code only
distinguishes `CONTINUE` (src/src/PrefetchOracle.cc:95), so `OTHER`
stands for any non-CONTINUE variant. -/
inductive PredictionType where
  | CONTINUE
  | OTHER
  deriving DecidableEq, Repr

/-- `PrefetchOracle::predict` (src/src/PrefetchOracle.cc:50-108): cap
the requested length at `max_prediction`; with fewer than 3 history
entries predict nothing; otherwise pick the most frequent pair-wise
distance, require its witness count to reach
`static_cast<size_t>(size * 0.75)` (the double product `size * 0.75`
is exactly `3*size/4`, truncated), emit `front_witness + i * distance`
for `i = 1 … witness count` (skipping non-positive values, capped at the
requested length), for `CONTINUE` drop values present in
`past_prediction`, and finally push the emitted values onto
`past_prediction`, trimmed to `sequence_capacity`. -/
def predictCore (s : OracleState) (length0 : Nat) (t : PredictionType) :
    List ℤ × OracleState :=
  let len := min length0 s.maxPrediction
  if s.sequence.length < 3 then ([], s)
  else
    match buildDistances s.sequence [] with
    | [] => ([], s)
    | first :: rest =>
      let best := pickDistance (first :: rest) first
      if best.2.length < 3 * s.sequence.length / 4 then ([], s)
      else
        let pred0 := (List.range best.2.length).foldl
          (fun acc i =>
            let p := best.2.headD 0 + (i + 1) * best.1
            if 0 < p ∧ acc.length < len then acc ++ [p] else acc) []
        let pred := match t with
          | PredictionType.CONTINUE =>
            pred0.filter (fun p => decide (p ∉ s.pastPrediction))
          | PredictionType.OTHER => pred0
        let past1 := pred.reverse ++ s.pastPrediction
        let past2 := if seqCapacity s.maxPrediction < past1.length
                     then past1.take (seqCapacity s.maxPrediction) else past1
        (pred, { s with pastPrediction := past2 })

/-- The oracle of scenario S4: `max_prediction = 5`, fed the accesses
10, 20, 30, 40 in that order. -/
def oracleS0 : OracleState :=
  oracleAdd (oracleAdd (oracleAdd (oracleAdd ⟨5, [], []⟩ 10) 20) 30) 40

theorem countCode_pair_le (results : List KStatus) {a b : StatusCode} (h : a ≠ b) :
    countCode results a + countCode results b ≤ results.length := by
  induction results with
  | nil => simp [countCode]
  | cons x xs ih =>
    simp only [countCode, List.countP_cons, List.length_cons] at *
    by_cases hxa : x.code = a <;> by_cases hxb : x.code = b
    · exact absurd (hxa ▸ hxb) h
    · simp [hxa, hxb, h, Ne.symm h]; omega
    · simp [hxa, hxb, h, Ne.symm h]; omega
    · simp [hxa, hxb]; omega

theorem reduceScan_quorum (nData nParity : Nat) (all : List KStatus)
    (hlen : all.length = nData + nParity) :
    ∀ suffix : List KStatus, (∀ y ∈ suffix, y ∈ all) →
      (∃ x ∈ suffix, nData ≤ countCode all x.code) →
      ∃ s, reduceScan nData nParity all suffix = some s ∧ s ∈ all ∧
        nData ≤ countCode all s.code := by
  intro suffix
  induction suffix with
  | nil =>
    rintro _ ⟨x, hx, _⟩
    simp at hx
  | cons o rest ih =>
    intro hsub hex
    by_cases hf : nData ≤ countCode all o.code
    · exact ⟨o, by simp [reduceScan, hf], hsub o (by simp), hf⟩
    · obtain ⟨x, hx, hxq⟩ := hex
      have hxo : x.code ≠ o.code := by
        intro hco
        rw [hco] at hxq
        exact hf hxq
      have hxrest : x ∈ rest := by
        rcases List.mem_cons.mp hx with h | h
        · exact absurd (congrArg KStatus.code h) hxo
        · exact h
      by_cases hb : nParity < countCode all o.code
      · exfalso
        have hpair := countCode_pair_le all (fun hco => hxo hco.symm)
        omega
      · obtain ⟨s, hs, hmem, hq⟩ :=
          ih (fun y hy => hsub y (List.mem_cons_of_mem _ hy)) ⟨x, hxrest, hxq⟩
        exact ⟨s, by simp [reduceScan, hf, hb, hs], hmem, hq⟩

theorem reduceScan_no_quorum (nData nParity : Nat) (all : List KStatus)
    (hq : ∀ s ∈ all, countCode all s.code < nData) :
    ∀ suffix : List KStatus, (∀ y ∈ suffix, y ∈ all) →
      reduceScan nData nParity all suffix = none := by
  intro suffix
  induction suffix with
  | nil => intro _; rfl
  | cons o rest ih =>
    intro hsub
    have ho := hq o (hsub o (by simp))
    by_cases hb : nParity < countCode all o.code
    · simp [reduceScan, Nat.not_le.mpr ho, hb]
    · simp [reduceScan, Nat.not_le.mpr ho, hb,
            ih (fun y hy => hsub y (List.mem_cons_of_mem _ hy))]

/-- Claim C1, amended: for a completed scatter-gather over a stripe
(`nData + nParity` per-drive results), if some status code occurs with
frequency at least `nData`, a result carrying such a code is returned;
in every other case — including when some status code occurs with
frequency greater than `nParity`, which merely stops the scan early —
the generic `CLIENT_IO_ERROR` "failed to get sufficient conforming
return results" is returned. -/
theorem quorum_reduction_amended (nData nParity : Nat) (results : List KStatus)
    (hlen : results.length = nData + nParity) :
    ((∃ x ∈ results, nData ≤ countCode results x.code) →
        executeReduce nData nParity results ∈ results ∧
        nData ≤ countCode results (executeReduce nData nParity results).code) ∧
    ((∀ s ∈ results, countCode results s.code < nData) →
        executeReduce nData nParity results = insufficientStatus) := by
  constructor
  · intro hex
    obtain ⟨s, hs, hmem, hq⟩ :=
      reduceScan_quorum nData nParity results hlen results (fun y hy => hy) hex
    unfold executeReduce
    rw [hs]
    exact ⟨hmem, hq⟩
  · intro hall
    unfold executeReduce
    rw [reduceScan_no_quorum nData nParity results hall results (fun y hy => hy)]
    rfl

/-- Witness for `quorum_reduction_amended` at a one-drive stripe. -/
theorem quorum_reduction_amended_witness :
    executeReduce 1 0 [okStatus] ∈ [okStatus] ∧
    1 ≤ countCode [okStatus] (executeReduce 1 0 [okStatus]).code :=
  (quorum_reduction_amended 1 0 [okStatus] (by decide)).1
    ⟨okStatus, by decide, by decide⟩

/-- Claim C1, counterexample: with `nData = 3`, `nParity = 1` and drive
results `[VERSION_MISMATCH, VERSION_MISMATCH, NOT_FOUND, NOT_FOUND]`, no
status reaches frequency `nData` while `VERSION_MISMATCH` has frequency
greater than `nParity`; the claim says that status is returned, but the
code returns the generic `CLIENT_IO_ERROR`, whose code occurs with
frequency 0 among the results. -/
theorem quorum_reduction_counterexample :
    (∀ s ∈ [vmStatus, vmStatus, nfStatus, nfStatus],
        countCode [vmStatus, vmStatus, nfStatus, nfStatus] s.code < 3) ∧
    1 < countCode [vmStatus, vmStatus, nfStatus, nfStatus]
        StatusCode.REMOTE_VERSION_MISMATCH ∧
    countCode [vmStatus, vmStatus, nfStatus, nfStatus]
        (executeReduce 3 1 [vmStatus, vmStatus, nfStatus, nfStatus]).code = 0 ∧
    executeReduce 3 1 [vmStatus, vmStatus, nfStatus, nfStatus] =
      insufficientStatus := by
  decide

theorem stripeTargetsAux_closed (numConn : Nat) :
    ∀ (size h : Nat), stripeTargetsAux numConn h size =
      (List.range size).map (fun i => (h + 1 + i) % numConn) := by
  intro size
  induction size with
  | zero => intro h; rfl
  | succ k ih =>
    intro h
    rw [List.range_succ_eq_map, List.map_cons, List.map_map]
    show ((h + 1) % numConn) :: stripeTargetsAux numConn ((h + 1) % numConn) k = _
    rw [ih]
    congr 1
    apply List.map_congr_left
    intro i _
    show ((h + 1) % numConn + 1 + i) % numConn = (h + 1 + (i + 1)) % numConn
    rw [Nat.add_assoc ((h + 1) % numConn) 1 i, Nat.mod_add_mod]
    congr 1
    omega

/-- Claim C4, amended: for every key hash `h`, the stripe's operations
target consecutive drive indices modulo `N`, starting at `(h + 1) mod N`
(the code advances the index before its first use), and the drive order
is a deterministic function of the hash: it equals the closed form
below. -/
theorem drive_selection_amended (h numConn size : Nat) :
    stripeTargets h numConn size =
      (List.range size).map (fun i => (h + 1 + i) % numConn) :=
  stripeTargetsAux_closed numConn size h

/-- Claim C4, counterexample: with hash value 0, three drives and two
operations, the code targets drives `[1, 2]`, not `[0, 1]` as the
spec's "starting at index hash(k) mod N" asserts. -/
theorem drive_selection_counterexample :
    stripeTargets 0 3 2 = [1, 2] ∧ specTargets 0 3 2 = [0, 1] ∧
    stripeTargets 0 3 2 ≠ specTargets 0 3 2 := by
  decide

/-- Claim C9, counterexample: after feeding 10, 20, 30, 40 to an oracle
with `max_prediction = 5`, `predict(5, CONTINUE)` does not return
`[50, 60, 70, 80]`: the winning distance 10 has exactly 3 witnesses
(the two skip-one pairs witness distance 20), so only 3 predictions are
emitted. -/
theorem oracle_scenario_counterexample :
    (predictCore oracleS0 5 PredictionType.CONTINUE).1 ≠ [50, 60, 70, 80] := by
  decide

/-- Claim C9, amended: after feeding 10, 20, 30, 40 to an oracle with
`max_prediction = 5`, `predict(5, CONTINUE)` returns exactly
`[50, 60, 70]`. -/
theorem oracle_scenario_amended :
    (predictCore oracleS0 5 PredictionType.CONTINUE).1 = [50, 60, 70] := by
  decide

/-- Claim C2: evaluation of the code at the failing input.  For a fully
healthy stripe (`nData = 2`, `nParity = 1`) whose first data blob is
`00 41` and second is `42 43`, with matching versions encoding length 4
and correct CRC tags, `KineticCluster::get` returns the bytes
`42 43 00 00` — because `append(c_str())` stops at the first NUL —
whereas the concatenation of the first `nData` blobs truncated to the
encoded length is `00 41 42 43`. -/
theorem get_value_assembly_bug :
    (clusterGet 2 1 xorCompute c2results).2 = some (⟨7, 4⟩, [66, 67, 0, 0]) ∧
    specAssembledValue 2 [[0, 65], [66, 67], [66, 2]] 4 = [0, 65, 66, 67] ∧
    ([66, 67, 0, 0] : List Nat) ≠ [0, 65, 66, 67] := by
  decide

/-- Claim C3: evaluation of the code at the failing input.  Putting the
4-byte value `00 41 42 43` on a healthy `nData = 2`, `nParity = 1`
stripe and getting it back (no drive unavailable, a combination of zero
failed drives) yields `42 43 00 00`, not the original value. -/
theorem put_get_roundtrip_bug :
    putGetRoundtrip 2 1 xorCompute [0, 65, 66, 67] 99 = some [66, 67, 0, 0] ∧
    putGetRoundtrip 2 1 xorCompute [0, 65, 66, 67] 99 ≠
      some [0, 65, 66, 67] := by
  decide

/-- Claim C5, counterexample: `DataCache::async_flush` does not submit
through the non-blocking `try_run`; it calls the blocking `run`. -/
theorem async_flush_counterexample :
    asyncFlushSubmitMode ≠ SubmitMode.tryRun := by
  decide

theorem lookupExc_setExc (excs : List (Nat × Nat)) (owner e : Nat) :
    lookupExc (setExc excs owner e) owner = some e := by
  induction excs with
  | nil => simp [setExc, lookupExc]
  | cons p rest ih =>
    obtain ⟨o, e'⟩ := p
    by_cases hp : o = owner
    · simp [setExc, hp, lookupExc]
    · simp [setExc, hp, lookupExc, ih]

theorem lookupExc_eraseExc (excs : List (Nat × Nat)) (owner : Nat) :
    lookupExc (eraseExc excs owner) owner = none := by
  induction excs with
  | nil => rfl
  | cons p rest ih =>
    obtain ⟨o, e'⟩ := p
    by_cases hp : o = owner
    · simpa [eraseExc, hp] using ih
    · simpa [eraseExc, lookupExc, hp] using ih

/-- Claim C5, amended: `DataCache::async_flush` submits the flush task
through the *blocking* `run` (not `try_run`); when the flush task
throws, `do_flush` records the exception in the owner's entry of the
exception map, and a `DataCache::get` that finds a recorded exception
for the owner removes the entry and raises that exception. -/
theorem async_flush_amended :
    asyncFlushSubmitMode = SubmitMode.run ∧
    (∀ excs owner e, lookupExc (doFlush excs owner true (some e)) owner = some e) ∧
    (∀ excs owner e, lookupExc excs owner = some e →
        (getExcCheck excs owner).1 = some e ∧
        lookupExc (getExcCheck excs owner).2 owner = none) := by
  refine ⟨rfl, ?_, ?_⟩
  · intro excs owner e
    simp [doFlush, lookupExc_setExc]
  · intro excs owner e h
    simp [getExcCheck, h, lookupExc_eraseExc]

/-- Witness for `async_flush_amended`: owner 1 with recorded
exception 7. -/
theorem async_flush_amended_witness :
    lookupExc [(1, 7)] 1 = some 7 ∧
    (getExcCheck [(1, 7)] 1).1 = some 7 ∧
    lookupExc (getExcCheck [(1, 7)] 1).2 1 = none :=
  ⟨rfl, async_flush_amended.2.2 [(1, 7)] 1 7 rfl⟩

theorem tailScan_dirty_filter (target : Nat) :
    ∀ (items : List CacheItem) (budget curr : Nat),
      ((tailScan target budget curr items).1.filter (fun i => i.dirty)) =
        items.filter (fun i => i.dirty) := by
  intro items
  induction items with
  | nil =>
    intro budget curr
    cases budget <;> simp [tailScan]
  | cons item rest ih =>
    intro budget curr
    cases rest with
    | nil => cases budget <;> simp [tailScan]
    | cons item2 rest2 =>
      cases budget with
      | zero => simp [tailScan]
      | succ b =>
        by_cases hct : curr ≤ target
        · simp [tailScan, hct]
        · by_cases hd : item.dirty
          · simp [tailScan, hct, hd, ih]
          · simp [tailScan, hct, hd, ih]

/-- Claim C6: the eviction scan shared by `DataCache::throttle` and
`DataCache::get` never removes a dirty item (the dirty items of the
cache are exactly preserved), and the capacity-pressure path of `get`
removes an item only in clean state — a dirty tail block whose flush
fails propagates the error and nothing is removed. -/
theorem eviction_never_removes_dirty :
    (∀ target budget curr items,
        ((tailScan target budget curr items).1.filter (fun i => i.dirty)) =
          items.filter (fun i => i.dirty)) ∧
    (∀ front tl flushOk out, capacityEvict front tl flushOk = Except.ok out →
        out.2.dirty = false ∧ out.1 = front) ∧
    (∀ front tl, tl.dirty = true → capacityEvict front tl false = Except.error ()) := by
  refine ⟨fun target budget curr items => tailScan_dirty_filter target items budget curr,
    ?_, ?_⟩
  · intro front tl flushOk out h
    cases htl : tl.dirty <;> cases flushOk <;>
      simp [capacityEvict, htl] at h <;> simp [← h, htl]
  · intro front tl h
    simp [capacityEvict, h]

/-- Witness for `eviction_never_removes_dirty`: the capacity path at a
dirty tail item whose flush succeeds removes it in clean state. -/
theorem eviction_never_removes_dirty_witness :
    capacityEvict [] ⟨true, 5⟩ true = Except.ok ([], ⟨false, 5⟩) ∧
    (⟨false, 5⟩ : CacheItem).dirty = false :=
  ⟨rfl, (eviction_never_removes_dirty.2.1 [] ⟨true, 5⟩ true ([], ⟨false, 5⟩) rfl).1⟩

/-- Claim C8: for any finite capacity exceeding the target size and any
bounded cache occupancy (hence bounded pressure), the throttle loop
terminates: the `wait_pressure` threshold of iteration `n` is
`0.10 + 0.01·n`, which grows without bound, while the pressure stays
bounded, so some iteration satisfies the exit condition
`cache_pressure() ≤ wait_pressure`. -/
theorem throttle_terminates (target capacity : Nat) (hcap : target < capacity)
    (curr : Nat → Nat) (bound : Nat) (hB : ∀ n, curr n ≤ bound) :
    ∃ n, cachePressure (curr n) target capacity ≤ waitPressure n := by
  refine ⟨100 * bound, ?_⟩
  have h1 : cachePressure (curr (100 * bound)) target capacity ≤ (bound : ℚ) := by
    unfold cachePressure
    split
    · exact Nat.cast_nonneg bound
    · have hden : (1 : ℚ) ≤ ((capacity - target : Nat) : ℚ) :=
        Nat.one_le_cast.mpr (by omega)
      have hnum : ((curr (100 * bound) - target : Nat) : ℚ) ≤ (bound : ℚ) :=
        Nat.cast_le.mpr (by have := hB (100 * bound); omega)
      calc ((curr (100 * bound) - target : Nat) : ℚ) / ((capacity - target : Nat) : ℚ)
          ≤ ((curr (100 * bound) - target : Nat) : ℚ) :=
            div_le_self (Nat.cast_nonneg _) hden
        _ ≤ (bound : ℚ) := hnum
  have h2 : (bound : ℚ) ≤ waitPressure (100 * bound) := by
    unfold waitPressure
    push_cast
    linarith
  linarith

/-- Witness for `throttle_terminates`: occupancy constantly 3 with
target 0 and capacity 1. -/
theorem throttle_terminates_witness :
    ∃ n, cachePressure 3 0 1 ≤ waitPressure n :=
  throttle_terminates 0 1 (by decide) (fun _ => 3) 3 (fun _ => le_refl 3)

theorem getD_take_drop (value : List Nat) (off rlen j : Nat) (hj : j < rlen) :
    ((value.drop off).take rlen).getD j 0 = value.getD (off + j) 0 := by
  rw [List.getD_eq_getElem?_getD, List.getD_eq_getElem?_getD, List.getElem?_take,
      if_pos hj, List.getElem?_drop]

theorem getD_replicate_zero (n k : Nat) :
    (List.replicate n (0 : Nat)).getD k 0 = 0 := by
  rw [List.getD_eq_getElem?_getD, List.getElem?_replicate]
  split <;> rfl

theorem readBytes_length (value init : List Nat) (vs off length : Nat)
    (hinit : init.length = length) :
    (readBytes value vs init off length).length = length := by
  unfold readBytes
  by_cases hb : vs < off + length <;> by_cases hov : off < vs <;>
    simp [hb, hov, List.length_append, List.length_take, List.length_drop,
      List.length_replicate, hinit] <;> omega

theorem readBytes_getD (value init : List Nat) (vs off length j : Nat)
    (hval : vs ≤ value.length) (hinit : init.length = length) (hj : j < length) :
    (readBytes value vs init off length).getD j 0 =
      if off + j < vs then value.getD (off + j) 0 else 0 := by
  have hdl : init.drop length = [] := by
    rw [← hinit]
    exact List.drop_length init
  unfold readBytes
  by_cases hov : off < vs
  · by_cases hb : vs < off + length
    · simp only [if_pos hb, if_pos hov, hdl, List.append_nil]
      set cl := min length (vs - off) with hcl
      set rlen := min cl (value.length - off) with hrlen
      have hrvs : rlen = vs - off := by omega
      by_cases hjr : j < rlen
      · rw [List.getD_append _ _ _ _
            (by simp [List.length_take, List.length_drop]; omega)]
        rw [getD_take_drop value off rlen j hjr, if_pos (by omega)]
      · rw [List.getD_append_right _ _ _ _
            (by simp [List.length_take, List.length_drop]; omega)]
        rw [List.drop_replicate, getD_replicate_zero, if_neg (by omega)]
    · simp only [if_neg hb, if_pos hov]
      set cl := min length (vs - off) with hcl
      set rlen := min cl (value.length - off) with hrlen
      have hrl : rlen = length := by omega
      rw [List.getD_append _ _ _ _
          (by simp [List.length_take, List.length_drop]; omega)]
      rw [getD_take_drop value off rlen j (by omega), if_pos (by omega)]
  · simp only [if_neg hov]
    have hb : vs < off + length := by omega
    simp only [if_pos hb, hdl, List.append_nil]
    rw [getD_replicate_zero, if_neg (by omega)]

/-- Claim C7: `DataBlock::read` raises an invalid-argument error exactly
when the buffer is NULL, the offset is negative, or `off + len` exceeds
`cluster.max_value_size`; on every valid call (in a state where the
value buffer covers `value_size`, which the staleness refresh
establishes), the requested bytes are the overlap of `[off, off+len)`
with `[0, value_size)` copied from the value, and every requested byte
at or beyond `value_size` is zero. -/
theorem read_semantics :
    (∀ (maxVS : Nat) (value : List Nat) (valueSize : Nat)
        (buffer : Option (List Nat)) (offset : ℤ) (length : Nat),
        (∃ e, blockRead maxVS value valueSize buffer offset length = Except.error e) ↔
          (buffer = none ∨ offset < 0 ∨ (maxVS : ℤ) < offset + length)) ∧
    (∀ (maxVS : Nat) (value init : List Nat) (valueSize : Nat)
        (offset : ℤ) (length : Nat),
        valueSize ≤ value.length → init.length = length → 0 ≤ offset →
        offset.toNat + length ≤ maxVS →
        ∃ out, blockRead maxVS value valueSize (some init) offset length =
            Except.ok out ∧
          out.length = length ∧
          ∀ j, j < length →
            out.getD j 0 = if offset.toNat + j < valueSize
                           then value.getD (offset.toNat + j) 0 else 0) := by
  constructor
  · intro maxVS value vs buffer offset length
    cases buffer with
    | none => simp [blockRead]
    | some init =>
      by_cases hoff : offset < 0
      · simp [blockRead, hoff]
      · by_cases hrange : maxVS < offset.toNat + length
        · simp only [blockRead, if_neg hoff, if_pos hrange]
          constructor
          · intro _
            right; right
            omega
          · intro _
            exact ⟨_, rfl⟩
        · simp only [blockRead, if_neg hoff, if_neg hrange]
          constructor
          · rintro ⟨e, he⟩
            exact absurd he (by simp)
          · rintro (h | h | h)
            · exact absurd h (by simp)
            · exact absurd h hoff
            · exact absurd h (by omega)
  · intro maxVS value init vs offset length hval hinit h0 hmax
    have hoff : ¬ offset < 0 := not_lt.mpr h0
    have hrange : ¬ maxVS < offset.toNat + length := not_lt.mpr hmax
    refine ⟨readBytes value vs init offset.toNat length, ?_, ?_, ?_⟩
    · simp only [blockRead, if_neg hoff, if_neg hrange]
    · exact readBytes_length value init vs offset.toNat length hinit
    · intro j hj
      exact readBytes_getD value init vs offset.toNat length j hval hinit hj

/-- Witness for `read_semantics`: reading 4 bytes at offset 1 from a
block whose value is `01 02 03` (`value_size = 3`) under
`max_value_size = 8` yields `02 03 00 00`. -/
theorem read_semantics_witness :
    ∃ out, blockRead 8 [1, 2, 3] 3 (some [9, 9, 9, 9]) 1 4 = Except.ok out ∧
      out.length = 4 ∧
      ∀ j, j < 4 →
        out.getD j 0 = if (1 : ℤ).toNat + j < 3
                       then [1, 2, 3].getD ((1 : ℤ).toNat + j) 0 else 0 :=
  read_semantics.2 8 [1, 2, 3] [9, 9, 9, 9] 3 1 4 (by decide) (by decide)
    (by decide) (by decide)

/-- Claim C10: every `predict` call that emits a non-empty prediction
pushes the emitted block numbers onto `past_prediction` (front-first)
and trims that deque to `sequence_capacity`, for *every* prediction
type — so `predict` is stateful even for non-CONTINUE calls — and a
CONTINUE `predict` never emits a value already present in
`past_prediction`, whichever kind of earlier call deposited it. -/
theorem predict_frame (s : OracleState) (len : Nat) (t : PredictionType) :
    ((predictCore s len t).1 ≠ [] →
      (predictCore s len t).2.pastPrediction =
        (if seqCapacity s.maxPrediction <
              ((predictCore s len t).1.reverse ++ s.pastPrediction).length
         then ((predictCore s len t).1.reverse ++ s.pastPrediction).take
                (seqCapacity s.maxPrediction)
         else (predictCore s len t).1.reverse ++ s.pastPrediction)) ∧
    (∀ x ∈ (predictCore s len PredictionType.CONTINUE).1,
        x ∉ s.pastPrediction) := by
  constructor
  · intro hne
    unfold predictCore at *
    by_cases h3 : s.sequence.length < 3
    · simp [h3] at hne
    · simp only [if_neg h3] at *
      rcases hbd : buildDistances s.sequence [] with _ | ⟨first, rest⟩ <;>
        simp only [hbd] at hne ⊢
      · simp at hne
      · by_cases hth : (pickDistance (first :: rest) first).2.length <
            3 * s.sequence.length / 4 <;>
          simp only [if_pos, if_neg, hth, ite_true, ite_false] at hne ⊢
        simp at hne
  · intro x hx
    unfold predictCore at hx
    by_cases h3 : s.sequence.length < 3
    · simp [h3] at hx
    · simp only [if_neg h3] at hx
      rcases hbd : buildDistances s.sequence [] with _ | ⟨first, rest⟩ <;>
        simp only [hbd] at hx
      · simp at hx
      · by_cases hth : (pickDistance (first :: rest) first).2.length <
            3 * s.sequence.length / 4 <;>
          simp only [if_pos, if_neg, hth, ite_true, ite_false] at hx
        · simp at hx
        · have := (List.mem_filter.mp hx).2
          simpa using this

/-- Witness for `predict_frame`: a non-CONTINUE `predict` on the S4
oracle emits `[50, 60, 70]` and still pushes them onto
`past_prediction`. -/
theorem predict_frame_witness :
    (predictCore oracleS0 5 PredictionType.OTHER).1 ≠ [] ∧
    (predictCore oracleS0 5 PredictionType.OTHER).2.pastPrediction =
      (if seqCapacity oracleS0.maxPrediction <
            ((predictCore oracleS0 5 PredictionType.OTHER).1.reverse ++
              oracleS0.pastPrediction).length
       then ((predictCore oracleS0 5 PredictionType.OTHER).1.reverse ++
              oracleS0.pastPrediction).take (seqCapacity oracleS0.maxPrediction)
       else (predictCore oracleS0 5 PredictionType.OTHER).1.reverse ++
              oracleS0.pastPrediction) :=
  ⟨by decide, (predict_frame oracleS0 5 PredictionType.OTHER).1 (by decide)⟩
